import Mathlib

/-!
Shallow embedding of the domain-cart component
(`src/components/challenge.tsx`) and verification of the spec's claims.

The component keeps three pieces of React state: the current text of the
input field (`domainInput`), the ordered list of cart entries (`domains`)
and the current user-visible validation error (`error`).  All cart
operations are synchronous list transformations; the availability lookup
inside `addDomain` is the single asynchronous step and is modelled by
passing the (resolved) oracle as a function `String → Bool`.

Strings are modelled over their character lists; JavaScript's
`toLowerCase`/`trim`/`includes`/`split('.').pop()`/`endsWith`-style regex
test are reproduced by structurally recursive functions on `List Char`
(ASCII-faithful, which covers every string the claims exercise).
-/

/-- `Domain` record from the source: a name and its availability flag. -/
structure Domain where
  name : String
  isAvailable : Bool
deriving DecidableEq, Repr

/-- The component state relevant to the core: the input field text,
the cart, and the pending validation error (`null` = `none`). -/
structure ChallengeState where
  domainInput : String
  domains : List Domain
  error : Option String
deriving DecidableEq, Repr

/-- JavaScript `String.prototype.toLowerCase`, restricted to the basic
latin letters exactly as `Char.toLower` does. -/
def lowerStr (s : String) : String :=
  String.mk (s.data.map Char.toLower)

/-- JavaScript `String.prototype.trim`: drop leading and trailing
whitespace characters. -/
def trimStr (s : String) : String :=
  String.mk (((s.data.dropWhile Char.isWhitespace).reverse.dropWhile
    Char.isWhitespace).reverse)

/-- `needle.isPrefixOf hay` for char lists, written out structurally. -/
def prefixOfChars : List Char → List Char → Bool
  | [], _ => true
  | _ :: _, [] => false
  | a :: as, b :: bs => a == b && prefixOfChars as bs

/-- JavaScript `hay.includes(needle)`: some suffix of `hay` starts with
`needle`. -/
def containsSub (hay needle : List Char) : Bool :=
  match hay with
  | [] => prefixOfChars needle []
  | _ :: t => prefixOfChars needle hay || containsSub t needle

/-- JavaScript `s.endsWith(suffixStr)` on char lists. -/
def endsWithChars (s suffixChars : List Char) : Bool :=
  prefixOfChars suffixChars.reverse s.reverse

/-- The regex test `/\.(com|xyz|app)$/.test s`: the string ends with one
of the three registered suffixes. -/
def hasRegisteredSuffix (s : String) : Bool :=
  endsWithChars s.data ".com".data || endsWithChars s.data ".xyz".data ||
    endsWithChars s.data ".app".data

/-- The pure validity check inside `validateDomain`:
`/\.(com|xyz|app)$/.test(lower) && !lower.includes('https://')`. -/
def validDomainCheck (domain : String) : Bool :=
  let lowerCaseDomain := lowerStr domain
  hasRegisteredSuffix lowerCaseDomain &&
    !(containsSub lowerCaseDomain.data "https://".data)

/-- The error message set by `validateDomain` on failure. -/
def invalidFormatMsg : String :=
  "Invalid domain format. Only .com, .xyz, and .app are allowed."

/-- The error message set by `addDomain` on a duplicate. -/
def duplicateMsg : String := "Domain already in cart."

/-- `validateDomain` from the source: computes the validity flag and
updates the `error` state (set on failure, cleared on success). -/
def validateDomain (domain : String) (s : ChallengeState) :
    Bool × ChallengeState :=
  let isValid := validDomainCheck domain
  if isValid then (true, { s with error := none })
  else (false, { s with error := some invalidFormatMsg })

/-- Outcome of one `addDomain` attempt (the spec's `AddOutcome`). -/
inductive AddOutcome where
  | rejectedInvalidFormat
  | rejectedDuplicate
  | added (d : Domain)
deriving DecidableEq, Repr

/-- `addDomain` from the source, with the availability promise already
resolved to the function `oracle`.  Normalizes the input
(`domainInput.trim().toLowerCase()`), validates, rejects duplicates
before any oracle query, and otherwise appends the new entry, clears the
input field, and leaves the error cleared by the successful validation. -/
def addDomain (oracle : String → Bool) (s : ChallengeState) :
    AddOutcome × ChallengeState :=
  let domain := lowerStr (trimStr s.domainInput)
  let v := validateDomain domain s
  if v.1 = false then (.rejectedInvalidFormat, v.2)
  else if v.2.domains.any (fun d => d.name == domain) then
    (.rejectedDuplicate, { v.2 with error := some duplicateMsg })
  else
    let isAvailable := oracle domain
    (.added ⟨domain, isAvailable⟩,
      { v.2 with
        domains := v.2.domains ++ [⟨domain, isAvailable⟩]
        domainInput := "" })

/-- `removeDomain` from the source:
`setDomains(domains.filter(d => d.name !== domainToRemove))`. -/
def removeDomain (domainToRemove : String) (s : ChallengeState) :
    ChallengeState :=
  { s with domains := s.domains.filter (fun d => !(d.name == domainToRemove)) }

/-- `clearCart` from the source: `setDomains([])`. -/
def clearCart (s : ChallengeState) : ChallengeState :=
  { s with domains := [] }

/-- `removeUnavailableDomains` from the source:
`setDomains(domains.filter(d => d.isAvailable))`. -/
def removeUnavailableDomains (s : ChallengeState) : ChallengeState :=
  { s with domains := s.domains.filter (fun d => d.isAvailable) }

/-- `tldPriority` from the source: `tld === '.com' ? 1 : tld === '.app' ? 2 : 3`. -/
def tldPriority (tld : String) : Int :=
  if tld == ".com" then 1 else if tld == ".app" then 2 else 3

/-- The characters after the last `'.'`: JavaScript
`name.split('.').pop() || ''` (the last split component, never
containing a dot). -/
def lastCompAux : List Char → List Char → List Char
  | [], acc => acc
  | c :: cs, acc => if c == '.' then lastCompAux cs [] else lastCompAux cs (acc ++ [c])

/-- `name.split('.').pop() || ''` as a string function. -/
def lastSplitComp (name : String) : String :=
  String.mk (lastCompAux name.data [])

/-- The comparator passed to `domains.sort` in `keepBestDomains`:
`tldPriority(aTld) - tldPriority(bTld) || a.name.length - b.name.length`. -/
def domainCmp (a b : Domain) : Int :=
  let aTld := lastSplitComp a.name
  let bTld := lastSplitComp b.name
  let p := tldPriority aTld - tldPriority bTld
  if p ≠ 0 then p else (a.name.data.length : Int) - (b.name.data.length : Int)

/-- `keepBestDomains` from the source: stable-sort by `domainCmp`
(ECMAScript `Array.prototype.sort` is stable) and keep the first
`numDomainsRequired` entries. -/
def keepBestDomains (numDomainsRequired : Nat) (s : ChallengeState) :
    ChallengeState :=
  let sortedDomains :=
    List.insertionSort (fun a b => domainCmp a b ≤ 0) s.domains
  { s with domains := sortedDomains.take numDomainsRequired }

/-- `isPurchaseDisabled` from the source:
`domains.length !== numDomainsRequired`. -/
def isPurchaseDisabled (numDomainsRequired : Nat) (s : ChallengeState) : Bool :=
  s.domains.length != numDomainsRequired

/-- The guard inside `handlePurchase` that alerts and aborts:
`domains.some(domain => !domain.isAvailable)`. -/
def purchaseAlertsUnavailable (s : ChallengeState) : Bool :=
  s.domains.any (fun d => !d.isAvailable)

/-- The spec's `purchaseReadiness`: the purchase actually goes through
exactly when the button is enabled (`!isPurchaseDisabled`) and
`handlePurchase` passes its availability guard without alerting. -/
def purchaseReadiness (numDomainsRequired : Nat) (s : ChallengeState) : Bool :=
  !(isPurchaseDisabled numDomainsRequired s) && !(purchaseAlertsUnavailable s)

/-- The claimed ranking's primary key, written from the spec's words for
comparison with the code's `tldPriority`: suffix priority with `.com`
best (0), then `.app` (1), then any other registered suffix (2). -/
def specSuffixPriority (name : String) : Nat :=
  if endsWithChars name.data ".com".data then 0
  else if endsWithChars name.data ".app".data then 1
  else 2

/-- The claimed sort order, written from the spec's words: suffix
priority ascending, ties broken by name length ascending. -/
def specKeyLE (a b : Domain) : Bool :=
  decide (specSuffixPriority a.name < specSuffixPriority b.name ∨
    (specSuffixPriority a.name = specSuffixPriority b.name ∧
      a.name.data.length ≤ b.name.data.length))

/-- A cart is sorted according to the claimed keys when each adjacent
pair is ordered by `specKeyLE`. -/
def specSortedByKeys : List Domain → Bool
  | a :: b :: t => specKeyLE a b && specSortedByKeys (b :: t)
  | _ => true

/-- `Char.toLower` is idempotent: lowering an already-lowered character
changes nothing. -/
theorem toLower_idem (c : Char) : c.toLower.toLower = c.toLower := by
  simp only [Char.toLower]
  by_cases h : c.toNat ≥ 65 ∧ c.toNat ≤ 90
  · rw [if_pos h]
    have hval : Nat.isValidChar (c.toNat + 32) := Or.inl (by omega)
    have htn : (Char.ofNat (c.toNat + 32)).toNat = c.toNat + 32 := by
      rw [Char.ofNat, dif_pos hval]
      rfl
    rw [if_neg]
    rw [htn]
    omega
  · rw [if_neg h, if_neg h]

/-- `lowerStr` is idempotent, so the extra `toLowerCase` inside
`validateDomain` is a no-op on the already-normalized input. -/
theorem lowerStr_idem (s : String) : lowerStr (lowerStr s) = lowerStr s := by
  simp only [lowerStr, List.map_map]
  congr 1
  exact List.map_congr_left fun c _ => toLower_idem c

/-- C1: counterexample evaluation. On the cart `[b.app, a.com]` with
`requiredCount = 2`, `keepBestDomains` leaves the order unchanged — the
comparator's `split('.').pop()` yields `"app"`/`"com"` without the dot,
so `tldPriority` returns 3 for every name and the claimed suffix
priority is never applied; the result is not sorted by the claimed
(suffix priority, name length) keys. -/
theorem keepBestDomains_violates_claimed_order :
    (keepBestDomains 2
      ⟨"", [⟨"b.app", true⟩, ⟨"a.com", true⟩], none⟩).domains
      = [⟨"b.app", true⟩, ⟨"a.com", true⟩] ∧
    specSortedByKeys [⟨"b.app", true⟩, ⟨"a.com", true⟩] = false ∧
    tldPriority (lastSplitComp "a.com") = 3 ∧
    tldPriority (lastSplitComp "b.app") = 3 := by decide

/-- C2: counterexample evaluation. On the spec's scenario cart
`[a.com (avail), b.xyz (unavail), c.app (avail)]` with
`requiredCount = 2` the code returns `[a.com, b.xyz]`, not the claimed
`[a.com, c.app]`: all three names have equal length and (because of the
dot-stripping bug) equal priority, so the stable sort keeps the
original order and the slice drops `c.app`. -/
theorem keepBestDomains_scenario_keeps_bxyz :
    (keepBestDomains 2
      ⟨"", [⟨"a.com", true⟩, ⟨"b.xyz", false⟩, ⟨"c.app", true⟩],
        none⟩).domains
      = [⟨"a.com", true⟩, ⟨"b.xyz", false⟩] ∧
    ([⟨"a.com", true⟩, ⟨"b.xyz", false⟩] : List Domain)
      ≠ [⟨"a.com", true⟩, ⟨"c.app", true⟩] := by decide

/-- C7: `removeUnavailableDomains` never lengthens the cart, leaves no
unavailable entry, and keeps the retained entries in their original
relative order (the result is a sublist of the original cart). -/
theorem removeUnavailableDomains_spec (s : ChallengeState) :
    (removeUnavailableDomains s).domains.length ≤ s.domains.length ∧
    (∀ d ∈ (removeUnavailableDomains s).domains, d.isAvailable = true) ∧
    List.Sublist (removeUnavailableDomains s).domains s.domains := by
  refine ⟨List.length_filter_le _ _, fun d hd => ?_, List.filter_sublist _⟩
  exact (List.mem_filter.mp hd).2

/-- C9: `clearCart` always produces an empty cart. -/
theorem clearCart_empties (s : ChallengeState) :
    (clearCart s).domains = [] := rfl

/-- C10: `removeDomain`, `clearCart`, `removeUnavailableDomains` and
`keepBestDomains` touch only the domain list; the pending error and the
input text are unchanged by each of them. -/
theorem bulk_ops_frame (s : ChallengeState) (name : String) (n : Nat) :
    (removeDomain name s).error = s.error ∧
    (removeDomain name s).domainInput = s.domainInput ∧
    (clearCart s).error = s.error ∧
    (clearCart s).domainInput = s.domainInput ∧
    (removeUnavailableDomains s).error = s.error ∧
    (removeUnavailableDomains s).domainInput = s.domainInput ∧
    (keepBestDomains n s).error = s.error ∧
    (keepBestDomains n s).domainInput = s.domainInput :=
  ⟨rfl, rfl, rfl, rfl, rfl, rfl, rfl, rfl⟩

/-- C3: the purchase goes through — the button is enabled and
`handlePurchase` passes its availability guard — exactly when the cart
length equals `numDomainsRequired` and every entry is available. -/
theorem purchaseReadiness_iff (n : Nat) (s : ChallengeState) :
    purchaseReadiness n s = true ↔
      s.domains.length = n ∧ ∀ d ∈ s.domains, d.isAvailable = true := by
  simp [purchaseReadiness, isPurchaseDisabled, purchaseAlertsUnavailable,
    List.any_eq_true]

/-- C8: `removeDomain` is idempotent — removing an absent name is a
no-op, and removing the same name twice equals removing it once. -/
theorem removeDomain_idempotent (s : ChallengeState) (name : String) :
    (name ∉ s.domains.map Domain.name → removeDomain name s = s) ∧
    removeDomain name (removeDomain name s) = removeDomain name s := by
  constructor
  · intro h
    have hf : s.domains.filter (fun d => !(d.name == name)) = s.domains := by
      apply List.filter_eq_self.mpr
      intro d hd
      simp only [Bool.not_eq_true', beq_eq_false_iff_ne]
      intro hdn
      exact h (hdn ▸ List.mem_map_of_mem Domain.name hd)
    cases s
    simp [removeDomain, hf]
  · simp [removeDomain, List.filter_filter]

/-- Witness for C8 at a concrete cart: removing the absent `b.com` is a
no-op, and removing `a.com` twice equals removing it once. -/
theorem removeDomain_idempotent_witness :
    removeDomain "b.com" ⟨"", [⟨"a.com", true⟩], none⟩
        = ⟨"", [⟨"a.com", true⟩], none⟩ ∧
    removeDomain "a.com" (removeDomain "a.com" ⟨"", [⟨"a.com", true⟩], none⟩)
        = removeDomain "a.com" ⟨"", [⟨"a.com", true⟩], none⟩ :=
  ⟨(removeDomain_idempotent ⟨"", [⟨"a.com", true⟩], none⟩ "b.com").1 (by decide),
   (removeDomain_idempotent ⟨"", [⟨"a.com", true⟩], none⟩ "a.com").2⟩

/-- C6: from an empty cart, adding `"Example.com"` when the oracle says
available yields exactly the cart `[{example.com, true}]`, clears any
pending error and clears the input field. -/
theorem addDomain_example_com (oracle : String → Bool) (e : Option String)
    (h : oracle "example.com" = true) :
    addDomain oracle ⟨"Example.com", [], e⟩ =
      (.added ⟨"example.com", true⟩,
        ⟨"", [⟨"example.com", true⟩], none⟩) := by
  have hnorm : lowerStr (trimStr "Example.com") = "example.com" := by decide
  have hv : validDomainCheck "example.com" = true := by decide
  simp [addDomain, validateDomain, hnorm, hv, h]

/-- Witness for C6 with the constantly-true oracle and a stale error. -/
theorem addDomain_example_com_witness :
    addDomain (fun _ => true) ⟨"Example.com", [], some "stale"⟩ =
      (.added ⟨"example.com", true⟩,
        ⟨"", [⟨"example.com", true⟩], none⟩) :=
  addDomain_example_com (fun _ => true) (some "stale") rfl

/-- C4: whenever the trimmed, lowercased input contains `https://` or
does not end in a registered suffix, `addDomain` rejects with
invalid-format, records the error message, and leaves the cart and the
input field unchanged. -/
theorem addDomain_invalid_format (oracle : String → Bool) (s : ChallengeState)
    (h : containsSub (lowerStr (trimStr s.domainInput)).data
          "https://".data = true ∨
         hasRegisteredSuffix (lowerStr (trimStr s.domainInput)) = false) :
    addDomain oracle s =
      (.rejectedInvalidFormat, { s with error := some invalidFormatMsg }) := by
  have hv : validDomainCheck (lowerStr (trimStr s.domainInput)) = false := by
    unfold validDomainCheck
    rw [lowerStr_idem]
    rcases h with h | h
    · simp [h]
    · simp [h]
  simp [addDomain, validateDomain, hv]

/-- Witness for C4 on the input `"https://a.com"`. -/
theorem addDomain_invalid_format_witness :
    addDomain (fun _ => true) ⟨"https://a.com", [], none⟩ =
      (.rejectedInvalidFormat,
        ⟨"https://a.com", [], some invalidFormatMsg⟩) :=
  addDomain_invalid_format (fun _ => true) ⟨"https://a.com", [], none⟩
    (by decide)

/-- C5: a valid input whose normalized name is already in the cart is
rejected as a duplicate with the duplicate error message, the cart and
input unchanged — and the result is the same for every oracle, i.e. the
availability oracle is never consulted. -/
theorem addDomain_duplicate (oracle₁ oracle₂ : String → Bool)
    (s : ChallengeState)
    (hv : validDomainCheck (lowerStr (trimStr s.domainInput)) = true)
    (hdup : lowerStr (trimStr s.domainInput) ∈ s.domains.map Domain.name) :
    addDomain oracle₁ s =
      (.rejectedDuplicate, { s with error := some duplicateMsg }) ∧
    addDomain oracle₁ s = addDomain oracle₂ s := by
  have hany : s.domains.any
      (fun d => d.name == lowerStr (trimStr s.domainInput)) = true := by
    rw [List.any_eq_true]
    obtain ⟨d, hd, hdn⟩ := List.mem_map.mp hdup
    exact ⟨d, hd, by simp [hdn]⟩
  have main : ∀ oracle : String → Bool, addDomain oracle s =
      (.rejectedDuplicate, { s with error := some duplicateMsg }) := by
    intro oracle
    simp [addDomain, validateDomain, hv, hany]
  exact ⟨main oracle₁, (main oracle₁).trans (main oracle₂).symm⟩

/-- Witness for C5: adding `"A.com "` (different case, extra space) when
`a.com` is already in the cart, under two different oracles. -/
theorem addDomain_duplicate_witness :
    addDomain (fun _ => true) ⟨"A.com ", [⟨"a.com", false⟩], none⟩ =
      (.rejectedDuplicate,
        ⟨"A.com ", [⟨"a.com", false⟩], some duplicateMsg⟩) ∧
    addDomain (fun _ => true) ⟨"A.com ", [⟨"a.com", false⟩], none⟩ =
      addDomain (fun _ => false) ⟨"A.com ", [⟨"a.com", false⟩], none⟩ :=
  addDomain_duplicate (fun _ => true) (fun _ => false)
    ⟨"A.com ", [⟨"a.com", false⟩], none⟩ (by decide) (by decide)
